import Mathlib

/-!
# Verification of `beman::take_before` (take_before.hpp)

Shallow embedding of the `take_before_view` range adaptor.

Modelling choices:
* A source sequence `V` is a finite `List α`; a cursor (iterator) over it is a
  `Nat` index `p`, dereferenceable iff `p < S.length`; the sequence's own
  exhaustion point (`std::ranges::end(base_)`) is the index `S.length`.
* A pointer `const T*` is modelled as `Option α` (`none` = `nullptr`); the
  `movable_box<T>` (which the implementation realizes as `std::optional<T>`,
  take_before.hpp:40-41) is likewise `Option α`, `none` = disengaged.
* Compile-time type traits (`std::is_empty_v` etc.) are modelled as boolean
  fields of a record, since they are opaque facts about a C++ type.
* A C++ "zero-footprint" (empty, stateless) element type is modelled
  semantically by `Subsingleton α`: every two values of the type are equal,
  which is exactly what having no stored state means.
-/

namespace TakeBefore

/-! ## Type-trait level model (take_before.hpp:35-37, 178-182) -/

/-- Compile-time traits of a C++ type, as opaque booleans. -/
structure TypeTraits where
  is_empty : Bool
  is_trivially_default_constructible : Bool
  is_trivially_destructible : Bool
deriving DecidableEq, Repr

/-- `tidy_obj` (take_before.hpp:35-37):
`std::is_empty_v<T> && std::is_trivially_default_constructible_v<T> &&
std::is_trivially_destructible_v<T>`. -/
def tidy_obj (t : TypeTraits) : Bool :=
  t.is_empty && t.is_trivially_default_constructible && t.is_trivially_destructible

/-- `std::ranges::enable_borrowed_range<take_before_view<V, T>>`
(take_before.hpp:178-182): `enable_borrowed_range<V> && tidy_obj<T>`.
`v_borrowed` is `enable_borrowed_range<V>` for the underlying view type. -/
def enable_borrowed_range_take_before (v_borrowed : Bool) (t : TypeTraits) : Bool :=
  v_borrowed && tidy_obj t

/-! ## The view and its sentinel (take_before.hpp:47-166) -/

/-- `movable_box<T>` = `std::optional<T>` (take_before.hpp:40-41). -/
abbrev movable_box (α : Type) : Type := Option α

/-- `take_before_view<V, T>` data members (take_before.hpp:54-55):
`V base_ = V();` and `movable_box<T> value_;`. -/
structure take_before_view (α : Type) where
  base_ : List α
  value_ : movable_box α
deriving DecidableEq, Repr

/-- The defaulted default constructor (take_before.hpp:58-60): `base_` is
value-initialized to `V()` (the empty sequence) and `value_`, a
`std::optional<T>` with no initializer, is default-constructed to the
disengaged state (`std::nullopt`). -/
def default_take_before_view (α : Type) : take_before_view α :=
  { base_ := [], value_ := none }

/-- The value constructors (take_before.hpp:62-66): both the copy form
`take_before_view(V base, const T& value)` and the move form
`take_before_view(V base, T&& value)` store the sequence in `base_` and
engage `value_` with the sentinel value. -/
def mk_take_before_view (base : List α) (value : α) : take_before_view α :=
  { base_ := base, value_ := some value }

/-- `take_before_view::begin` (take_before.hpp:75-86): returns
`std::ranges::begin(base_)`, the source sequence's start cursor (index 0). -/
def take_before_view.begin (_v : take_before_view α) : Nat := 0

/-- `take_before_view<V, T>::sentinel<Const>` data members
(take_before.hpp:119-120): the recorded true end `end_` and the pointer
`const T* value_ = nullptr` (left null on the `tidy_obj` path). -/
structure tb_sentinel (α : Type) (Const : Bool) where
  end_ : Nat
  value_ : Option α
deriving DecidableEq, Repr

/-- `take_before_view::end` non-const overload (take_before.hpp:88-95), on the
non-`tidy_obj` path: builds `sentinel<false>(ranges::end(base_),
addressof(*value_))`. Dereferencing the stored `movable_box` is modelled
fallibly: if the box is disengaged (`*value_` of an empty `std::optional`,
undefined behavior in C++), no marker value exists. -/
def take_before_view.end_nonconst (v : take_before_view α) :
    Option (tb_sentinel α false) :=
  v.value_.map (fun t => { end_ := v.base_.length, value_ := some t })

/-- `take_before_view::end` (take_before.hpp:88-95) on the `tidy_obj` path:
builds `sentinel<false>(ranges::end(base_))`, with `value_` left `nullptr`. -/
def take_before_view.end_tidy (v : take_before_view α) : tb_sentinel α false :=
  { end_ := v.base_.length, value_ := none }

/-- `operator==(const iterator_t<Base>& x, const sentinel& y)`
(take_before.hpp:149-155), non-`tidy_obj` branch:
`y.end_ == x || *y.value_ == *x`. `endPos` is the marker's recorded `end_`,
`value` the pointee of its stored `const T*`, and `p` the cursor. The
disjunction short-circuits, so `*x` is only read when the cursor is not at
the recorded end; a dereference of an exhausted cursor yields no element
(`none`) and the comparison is then false. -/
def iter_eq_sentinel [DecidableEq α] (S : List α) (endPos : Nat) (value : α)
    (p : Nat) : Bool :=
  decide (endPos = p) ||
    (match S.get? p with
     | some a => decide (value = a)
     | none => false)

/-- `operator==` (take_before.hpp:149-155), `tidy_obj` branch:
`y.end_ == x || T() == *x`, with a fresh value-initialized `T()` synthesized
for the comparison (modelled by `default`). -/
def iter_eq_sentinel_tidy [DecidableEq α] [Inhabited α] (S : List α)
    (endPos : Nat) (p : Nat) : Bool :=
  decide (endPos = p) ||
    (match S.get? p with
     | some a => decide ((default : α) = a)
     | none => false)

/-- The reversed operand order `sentinel == iterator`: C++20 rewrites
`y == x` to the same friend `operator==` of take_before.hpp:149-155, so it is
by definition the same comparison. -/
def sentinel_eq_iter [DecidableEq α] (S : List α) (endPos : Nat) (value : α)
    (p : Nat) : Bool :=
  iter_eq_sentinel S endPos value p

/-- The sentinel converting constructor `sentinel(sentinel<!Const> s)`
(take_before.hpp:139-145): available only when the target is `Const`
(`requires Const`), it copies `s.end_` and, on the non-`tidy_obj` path,
copies the pointer `s.value_`. `convert cTo` asks for a conversion *to*
constness `cTo`; when `cTo = false` the constructor's constraint fails and no
conversion exists. -/
def tb_sentinel.convert : (cTo : Bool) → tb_sentinel α (!cTo) →
    Option (tb_sentinel α cTo)
  | true, s => some { end_ := s.end_, value_ := s.value_ }
  | false, _ => none

/-! ## Iteration protocol

A consumer of the view advances a cursor from `begin` and tests it against the
end marker after each step (the standard range-for protocol); the elements
yielded are those traversed before the first cursor that compares equal to the
marker. -/

/-- Collect the elements yielded from cursor `p` onward: stop as soon as the
cursor compares equal to the end marker (`iter_eq_sentinel`), otherwise yield
the current element and advance. -/
def collect_from [DecidableEq α] (S : List α) (endPos : Nat) (value : α)
    (p : Nat) : List α :=
  if iter_eq_sentinel S endPos value p then []
  else
    match h : S.get? p with
    | some a => a :: collect_from S endPos value (p + 1)
    | none => []
termination_by S.length - p
decreasing_by
  have hlt : p < S.length := by
    by_contra hc
    rw [List.get?_eq_getElem?, List.getElem?_eq_none (Nat.le_of_not_lt hc)] at h
    exact Option.noConfusion h
  omega

/-- One full traversal of the view: obtain `begin` and the end marker from the
view, run the iteration protocol, and hand the (unchanged) view back. The
first component is `none` when obtaining the marker dereferences a disengaged
`movable_box` (no defined result exists). -/
def traverse_once [DecidableEq α] (v : take_before_view α) :
    Option (List α) × take_before_view α :=
  match v.end_nonconst with
  | some m =>
    match m.value_ with
    | some t => (some (collect_from v.base_ m.end_ t v.begin), v)
    | none => (none, v)
  | none => (none, v)

/-- The element sequence a single iteration of the view yields. -/
def take_before_view.elements [DecidableEq α] (v : take_before_view α) :
    Option (List α) :=
  (traverse_once v).1

/-! ## The `views::take_before` adaptor (take_before.hpp:188-244) -/

/-- `views::detail::take_before_closure<T>` (take_before.hpp:193-212): stores
the sentinel value. -/
structure take_before_closure (α : Type) where
  value_ : α
deriving DecidableEq, Repr

/-- `take_before_closure::operator()(R&&)` (take_before.hpp:200-204):
constructs `take_before_view(r, value_)`. -/
def take_before_closure.apply (c : take_before_closure α) (r : List α) :
    take_before_view α :=
  mk_take_before_view r c.value_

/-- The pipe `operator|(R&&, const take_before_closure&)`
(take_before.hpp:207-211): `return self(std::forward<R>(r));`. -/
def pipe_closure (r : List α) (c : take_before_closure α) : take_before_view α :=
  c.apply r

/-- `take_before_fn::operator()(R&&, T&&)`, the two-argument range overload
(take_before.hpp:218-222): constructs the view directly. -/
def take_before_fn_range (r : List α) (value : α) : take_before_view α :=
  mk_take_before_view r value

/-- `take_before_fn::operator()(T&&)`, the one-argument overload
(take_before.hpp:236-239): returns a `take_before_closure` capturing the
value. -/
def take_before_fn_single (value : α) : take_before_closure α :=
  { value_ := value }


/-! ## Bridge lemmas -/

theorem collect_from_eq_takeWhile [DecidableEq α] (S : List α) (x : α) (p : Nat)
    (hp : p ≤ S.length) :
    collect_from S S.length x p
      = (S.drop p).takeWhile (fun a => !(decide (x = a))) := by
  obtain ⟨k, hk⟩ : ∃ k, S.length - p = k := ⟨_, rfl⟩
  induction k generalizing p with
  | zero =>
    have hpe : p = S.length := by omega
    subst hpe
    rw [collect_from]
    simp [iter_eq_sentinel]
  | succ k ih =>
    have hlt : p < S.length := by omega
    have hget : S.get? p = some S[p] := by
      simp [List.get?_eq_getElem?, List.getElem?_eq_getElem hlt]
    rw [collect_from, List.drop_eq_getElem_cons hlt]
    by_cases hx : x = S[p]
    · subst hx
      have hstop : iter_eq_sentinel S S.length S[p] p = true := by
        simp [iter_eq_sentinel, List.get?_eq_getElem?, List.getElem?_eq_getElem hlt]
      simp [hstop, List.takeWhile_cons]
    · have hgo : iter_eq_sentinel S S.length x p = false := by
        simp [iter_eq_sentinel, List.get?_eq_getElem?, List.getElem?_eq_getElem hlt, hx]
        omega
      rw [hgo]
      simp only [Bool.false_eq_true, if_false]
      rw [List.takeWhile_cons_of_pos (by simp [hx])]
      split
      next a h =>
        obtain rfl : a = S[p] := by rw [hget] at h; exact (Option.some.inj h).symm
        rw [ih (p + 1) (by omega) (by omega)]
      next h =>
        rw [hget] at h
        exact absurd h (by simp)

theorem takeWhile_ne_eq_take [DecidableEq α] (x : α) :
    ∀ (S : List α) (p1 : Nat) (h1 : p1 < S.length), S[p1] = x →
      (∀ i (hi : i < S.length), i < p1 → S[i] ≠ x) →
      S.takeWhile (fun a => !(decide (x = a))) = S.take p1
  | [], p1, h1, _, _ => absurd h1 (by simp)
  | a :: t, 0, h1, hx, _ => by
      simp at hx
      subst hx
      simp [List.takeWhile_cons]
  | a :: t, p1 + 1, h1, hx, hfirst => by
      have ha : a ≠ x := by
        have := hfirst 0 (by simp) (by omega)
        simpa using this
      rw [List.takeWhile_cons_of_pos (by simp; exact fun h => ha h.symm)]
      rw [List.take_succ_cons]
      congr 1
      exact takeWhile_ne_eq_take x t p1 (by simpa using h1) (by simpa using hx)
        (fun i hi hip => by
          have := hfirst (i + 1) (by simpa using hi) (by omega)
          simpa using this)

theorem takeWhile_ne_eq_self [DecidableEq α] (x : α) :
    ∀ (S : List α), (∀ a ∈ S, a ≠ x) →
      S.takeWhile (fun a => !(decide (x = a))) = S
  | [], _ => rfl
  | a :: t, habs => by
      have ha : a ≠ x := habs a (by simp)
      rw [List.takeWhile_cons_of_pos (by simp; exact fun h => ha h.symm)]
      rw [takeWhile_ne_eq_self x t (fun b hb => habs b (by simp [hb]))]

theorem elements_mk_eq_takeWhile [DecidableEq α] (S : List α) (x : α) :
    (mk_take_before_view S x).elements
      = some (S.takeWhile (fun a => !(decide (x = a)))) := by
  have h0 : (mk_take_before_view S x).elements = some (collect_from S S.length x 0) := rfl
  rw [h0, collect_from_eq_takeWhile S x 0 (Nat.zero_le _)]
  rfl


/-! ## Claim theorems -/

/-- Shared first-match lemma: when `x` first occurs in `S` at index `p1`, the
view built from `S` and `x` yields exactly `S.take p1`. -/
theorem elements_first_match [DecidableEq α] (S : List α) (x : α) (p1 : Nat)
    (h1 : p1 < S.length) (hx : S[p1] = x)
    (hfirst : ∀ i (hi : i < S.length), i < p1 → S[i] ≠ x) :
    (mk_take_before_view S x).elements = some (S.take p1) := by
  rw [elements_mk_eq_takeWhile, takeWhile_ne_eq_take x S p1 h1 hx hfirst]

/-- C1: for a finite source sequence `S` and a sentinel value `x` occurring in
`S`, with `p1` the least index where an element equals `x`, iterating the
view built from `S` and `x` yields exactly the elements of `S` at indices
`[0, p1)`, in order; later occurrences of `x` are irrelevant (only the
first-occurrence hypotheses enter). -/
theorem first_match_yields_initial_segment [DecidableEq α] (S : List α) (x : α)
    (p1 : Nat) (h1 : p1 < S.length) (hx : S[p1] = x)
    (hfirst : ∀ i (hi : i < S.length), i < p1 → S[i] ≠ x) :
    (mk_take_before_view S x).elements = some (S.take p1) :=
  elements_first_match S x p1 h1 hx hfirst

/-- C1 witness: `S = [1,2,3,2,4,2,5]`, `x = 2`, first occurrence at index 1;
the view yields `[1]`, ignoring the later occurrences of `2`. -/
theorem first_match_yields_initial_segment_instance :
    (1 < ([1,2,3,2,4,2,5] : List ℕ).length) ∧
    ([1,2,3,2,4,2,5] : List ℕ)[1] = 2 ∧
    (∀ i (hi : i < ([1,2,3,2,4,2,5] : List ℕ).length), i < 1 →
      ([1,2,3,2,4,2,5] : List ℕ)[i] ≠ 2) ∧
    (mk_take_before_view ([1,2,3,2,4,2,5] : List ℕ) 2).elements
      = some (([1,2,3,2,4,2,5] : List ℕ).take 1) :=
  ⟨by decide, by decide, by decide,
    first_match_yields_initial_segment [1,2,3,2,4,2,5] 2 1 (by decide)
      (by decide) (by decide)⟩

/-- C2: for a cursor `p` that is dereferenceable or the exhaustion point
(`p ≤ S.length`), the end marker built by the view (recorded end
`S.length`, stored value `x`) compares equal to `p` iff `p` is the
exhaustion point or the element at `p` equals the sentinel value; and the
reversed operand order (`sentinel == iterator`, a C++20 rewrite to the same
`operator==`) gives the same result. -/
theorem end_marker_equality_characterization [DecidableEq α] (S : List α)
    (x : α) (p : Nat) (hp : p ≤ S.length) :
    (iter_eq_sentinel S S.length x p = true ↔
      (p = S.length ∨ ∃ h : p < S.length, S[p] = x)) ∧
    sentinel_eq_iter S S.length x p = iter_eq_sentinel S S.length x p := by
  refine ⟨?_, rfl⟩
  unfold iter_eq_sentinel
  rcases Nat.lt_or_ge p S.length with hlt | hge
  · have hget : S.get? p = some S[p] := by
      simp [List.get?_eq_getElem?, List.getElem?_eq_getElem hlt]
    rw [hget]
    simp only [Bool.or_eq_true, decide_eq_true_eq]
    constructor
    · rintro (h | h)
      · exact Or.inl h.symm
      · exact Or.inr ⟨hlt, h.symm⟩
    · rintro (h | ⟨h1, hh⟩)
      · exact Or.inl h.symm
      · exact Or.inr hh.symm
  · have hpe : p = S.length := by omega
    subst hpe
    simp

/-- C2 witness: `S = [5]`, `x = 5`, `p = 0`: the cursor is dereferenceable,
its element equals the sentinel value, and the marker comparison holds in
both operand orders. -/
theorem end_marker_equality_characterization_instance :
    ((0 : Nat) ≤ ([5] : List ℕ).length) ∧
    ((iter_eq_sentinel ([5] : List ℕ) ([5] : List ℕ).length 5 0 = true ↔
      (0 = ([5] : List ℕ).length ∨
        ∃ h : 0 < ([5] : List ℕ).length, ([5] : List ℕ)[0] = 5)) ∧
    sentinel_eq_iter ([5] : List ℕ) ([5] : List ℕ).length 5 0
      = iter_eq_sentinel ([5] : List ℕ) ([5] : List ℕ).length 5 0) :=
  ⟨by decide, end_marker_equality_characterization [5] 5 0 (by decide)⟩

/-- C3: `take_before_view<V, T>` is classified borrowed iff `V` is borrowed
and `T` is `tidy_obj` (empty, trivially default-constructible, trivially
destructible); in particular a non-`tidy_obj` `T` never gives a borrowed
view, whatever `V`'s classification. -/
theorem borrowed_range_classification (vb : Bool) (t : TypeTraits) :
    (enable_borrowed_range_take_before vb t = true ↔
      (vb = true ∧ tidy_obj t = true)) ∧
    (tidy_obj t = false → enable_borrowed_range_take_before vb t = false) := by
  unfold enable_borrowed_range_take_before
  constructor
  · simp
  · intro h
    simp [h]

/-- C3 witness: a borrowed `V` with a non-empty (hence non-`tidy_obj`) `T`:
the view is not classified borrowed. -/
theorem borrowed_range_classification_instance :
    (enable_borrowed_range_take_before true ⟨false, true, true⟩ = true ↔
      (true = true ∧ tidy_obj ⟨false, true, true⟩ = true)) ∧
    (tidy_obj ⟨false, true, true⟩ = false →
      enable_borrowed_range_take_before true ⟨false, true, true⟩ = false) :=
  borrowed_range_classification true ⟨false, true, true⟩

/-- C4: if no element of `S` equals `x`, the view yields all of `S`,
unchanged in order and count, terminating exactly where `S` terminates. -/
theorem absent_value_yields_whole_sequence [DecidableEq α] (S : List α) (x : α)
    (habs : ∀ a ∈ S, a ≠ x) :
    (mk_take_before_view S x).elements = some S := by
  rw [elements_mk_eq_takeWhile, takeWhile_ne_eq_self x S habs]

/-- C4 witness: `S = [1,2]`, `x = 5` (absent): the view yields `[1,2]`. -/
theorem absent_value_yields_whole_sequence_instance :
    (∀ a ∈ ([1,2] : List ℕ), a ≠ 5) ∧
    (mk_take_before_view ([1,2] : List ℕ) 5).elements = some [1,2] :=
  ⟨by decide, absent_value_yields_whole_sequence [1,2] 5 (by decide)⟩

/-- C5: applying the adaptor's range overload to the mapped sequence
`S.map f` with value `x` yields exactly the elements of `S.map f` before the
first index `i` with `f S[i] = x`. -/
theorem adaptor_composes_after_map [DecidableEq β] (S : List α) (f : α → β)
    (x : β) (p1 : Nat) (h1 : p1 < S.length) (hx : f S[p1] = x)
    (hfirst : ∀ i (hi : i < S.length), i < p1 → f S[i] ≠ x) :
    (take_before_fn_range (S.map f) x).elements = some ((S.map f).take p1) := by
  have h1m : p1 < (S.map f).length := by simpa using h1
  refine elements_first_match (S.map f) x p1 h1m ?_ ?_
  · simpa using hx
  · intro i hi hip
    have hiS : i < S.length := by simpa using hi
    simpa using hfirst i hiS hip

/-- C5 witness: `S = [1,2,3,4,5]` mapped by doubling, `x = 6`: the view over
the mapped sequence yields `[2,4]`. -/
theorem adaptor_composes_after_map_instance :
    (2 < ([1,2,3,4,5] : List ℕ).length) ∧
    ((fun v => v * 2) ([1,2,3,4,5] : List ℕ)[2] = 6) ∧
    (take_before_fn_range (([1,2,3,4,5] : List ℕ).map (fun v => v * 2)) 6).elements
      = some ((([1,2,3,4,5] : List ℕ).map (fun v => v * 2)).take 2) :=
  ⟨by decide, by decide,
    adaptor_composes_after_map [1,2,3,4,5] (fun v => v * 2) 6 2 (by decide)
      (by decide) (by decide)⟩

/-- C6: the deferred (curried) adaptor form agrees with the direct
two-argument form: applying the closure returned by `take_before(x)` to `r`,
and piping `r` into that closure, both produce the same view as
`take_before(r, x)`. -/
theorem curried_adaptor_agrees_with_direct (x : α) (r : List α) :
    (take_before_fn_single x).apply r = take_before_fn_range r x ∧
    pipe_closure r (take_before_fn_single x) = take_before_fn_range r x :=
  ⟨rfl, rfl⟩

/-- C7: for a zero-footprint sentinel type (modelled by `Subsingleton α`:
the type has no stored state, so all its values coincide), at any
dereferenceable cursor the value-free marker comparison that synthesizes a
fresh default `T()` agrees with the value-carrying comparison reading the
stored value `t`. -/
theorem tidy_marker_comparison_agrees [DecidableEq α] [Inhabited α]
    [Subsingleton α] (S : List α) (endPos : Nat) (t : α) (p : Nat)
    (_hp : p < S.length) :
    iter_eq_sentinel_tidy S endPos p = iter_eq_sentinel S endPos t p := by
  unfold iter_eq_sentinel_tidy iter_eq_sentinel
  rw [Subsingleton.elim (default : α) t]

/-- C7 witness: the one-element `Unit` sequence with stored value `()` at
cursor 0. -/
theorem tidy_marker_comparison_agrees_instance :
    (0 < ([()] : List Unit).length) ∧
    iter_eq_sentinel_tidy ([()] : List Unit) 1 0
      = iter_eq_sentinel ([()] : List Unit) 1 () 0 :=
  ⟨by decide, tidy_marker_comparison_agrees [()] 1 () 0 (by decide)⟩

/-- C8: converting a mutable-access (`Const = false`) end marker to the
immutable-access one preserves the recorded true-end position and the stored
pointer to the sentinel value, and alters nothing else (the converted marker
is exactly `⟨end_, value_⟩`, its every field); no conversion to the
mutable-access marker exists. -/
theorem marker_const_conversion_one_way (α : Type) :
    (∀ s : tb_sentinel α false,
      tb_sentinel.convert true s = some { end_ := s.end_, value_ := s.value_ }) ∧
    (∀ s : tb_sentinel α true, tb_sentinel.convert false s = none) :=
  ⟨fun _ => rfl, fun _ => rfl⟩

/-- C9: traversing the same view twice from its start yields identical
element sequences, and the traversal hands back the view unchanged: the view
(whose only data members are `base_` and `value_`, take_before.hpp:54-55)
retains no iteration-position state between calls. The source sequence is a
stored list value, hence stable. -/
theorem reiteration_yields_identical_elements [DecidableEq α]
    (v : take_before_view α) :
    (traverse_once v).2 = v ∧
    (traverse_once ((traverse_once v).2)).1 = (traverse_once v).1 := by
  have h2 : (traverse_once v).2 = v := by
    unfold traverse_once
    cases hv : v.end_nonconst with
    | none => rfl
    | some m =>
      cases hm : m.value_ with
      | none => simp [hm]
      | some t => simp [hm]
  exact ⟨h2, by rw [h2]⟩

/-- C10: after default construction (take_before.hpp:58-60) the `movable_box`
member `value_` — realized as `std::optional` (take_before.hpp:40-41), whose
default constructor leaves it disengaged — holds no value, so on the
non-zero-footprint path `end()` (take_before.hpp:94) dereferences a
disengaged box and no marker with a valid stored value exists; this
contradicts the claim that the box is engaged after default construction
(the documented movable-box semantics the `std::optional` substitute was
meant to provide). -/
theorem default_constructed_box_disengaged :
    (default_take_before_view Int).value_ = none ∧
    (default_take_before_view Int).end_nonconst = none :=
  ⟨rfl, rfl⟩

end TakeBefore
